import Mathlib

/-!
A shallow embedding of the spoonjs `Controller` (src/core/Controller.js):
the state-table parser, default-state normalizer, name resolver, equality
decider and delegation engine, together with theorems checking the
natural-language specification against this embedding.

JavaScript objects used as parameter bags are modelled as association
lists in insertion order (`Params`); the `mout` helpers `mixIn` and
`fillIn` are modelled accordingly.  Descriptor objects (`State`) and the
state registry are external collaborators of the repository (they are not
part of the source tree); they are modelled from the spec's interface
contracts.  Object identity (JavaScript `===`) is modelled by a numeric
`id` carried by every descriptor: a world holds a counter `fresh`, every
allocation takes the current counter value as its id and bumps the
counter, so distinct objects always have distinct ids.
-/

namespace Spoon

/-- A JavaScript object used as a parameter bag: keys in insertion order. -/
abbrev Params := List (String × String)

/-- JavaScript property write: replace the value if the key exists,
otherwise append the key at the end (insertion order). -/
def objSet (o : Params) (k : String) (v : String) : Params :=
  if (o.lookup k).isSome then o.map (fun kv => if kv.1 = k then (k, v) else kv)
  else o ++ [(k, v)]

/-- `mout/object/mixIn(target, source)`: copy every property of `source`
onto `target`, overwriting existing keys. -/
def mixIn (target source : Params) : Params :=
  source.foldl (fun acc kv => objSet acc kv.1 kv.2) target

/-- `mout/object/fillIn(target, source)`: copy only the properties of
`source` whose key is not yet defined on `target`. -/
def fillIn (target source : Params) : Params :=
  source.foldl (fun acc kv => if (acc.lookup kv.1).isSome then acc else objSet acc kv.1 kv.2) target

/-- Split a character list on a separator character; the result always
has one piece more than there are separators (`"".split('.') = [""]`). -/
def charsSplit (sep : Char) : List Char → List (List Char)
  | [] => [[]]
  | c :: rest =>
    match charsSplit sep rest with
    | [] => [[c]]
    | h :: t => if c = sep then [] :: h :: t else (c :: h) :: t

/-- Join character lists with a separator character. -/
def charsJoin (sep : Char) : List (List Char) → List Char
  | [] => []
  | [x] => x
  | x :: y :: t => x ++ sep :: charsJoin sep (y :: t)

/-- JavaScript `s.substr(n)`. -/
def strDrop (s : String) (n : Nat) : String := String.mk (s.toList.drop n)

/-- JavaScript `startsWith(s, pre)` (`mout/string/startsWith`). -/
def jsStartsWith (s pre : String) : Bool := pre.toList.isPrefixOf s.toList

/-- Split a full state name on the path separator, as JavaScript
`fullName.split('.')` does. -/
def splitDot (s : String) : List String := (charsSplit '.' s.toList).map String.mk

/-- Join segments with the path separator. -/
def joinDot (l : List String) : String := String.mk (charsJoin '.' (l.map String.toList))

/-- Modelled from the spec: the external `State` descriptor contract
(§3/§6 of the spec; the descriptor class is not part of this repository).
It carries a full dotted name (as its segments), an internal segment
cursor, a parameter bag, and an allocation id standing for JavaScript
object identity. -/
structure SState where
  id : Nat
  segments : List String
  cursor : Nat
  params : Params
deriving Repr, DecidableEq

/-- Modelled from the spec: `state.getName()` — the segment under the
cursor; the empty string models the falsy out-of-range result. -/
def SState.getName (s : SState) : String := s.segments.getD s.cursor ""

/-- Modelled from the spec: `state.getFullName()`. -/
def SState.getFullName (s : SState) : String := joinDot s.segments

/-- Modelled from the spec: `state.setFullName(name)` rewrites the full
name in place; the cursor is kept. -/
def SState.setFullName (s : SState) (fullName : String) : SState :=
  { s with segments := splitDot fullName }

/-- Modelled from the spec: `state.next()` advances the segment cursor. -/
def SState.next (s : SState) : SState := { s with cursor := s.cursor + 1 }

/-- Modelled from the spec: `state.getParams()` (read access). -/
def SState.getParams (s : SState) : Params := s.params

/-- Modelled from the spec: `state.clone()` produces an independent copy;
the copy gets a fresh allocation id supplied by the caller's world. -/
def SState.clone (s : SState) (freshId : Nat) : SState := { s with id := freshId }

/-- Modelled from the spec: `state.seekTo(localName)` positions the
cursor at the given local name (first matching segment). -/
def SState.seekTo (s : SState) (localName : String) : SState :=
  { s with cursor := s.segments.indexOf localName }

/-- Modelled from the spec: `state.isEqual(other, relevantKeys)` —
equality restricted to a key set: same (cursor-local) name and equal
parameter values at each of the given keys. -/
def SState.isEqual (s other : SState) (keys : List String) : Bool :=
  s.getName == other.getName &&
    keys.all (fun k => s.params.lookup k == other.params.lookup k)

/-- One parsed entry of a controller's state table
(`this._states[key]` in `_parseStates`): the wildcard flag, the
relevant-parameter list, and the resolved handler (`none` models the
JavaScript `undefined` left by an unresolvable reference in a non-debug
build; a callable is an opaque numeric identifier). -/
structure StateMeta where
  wildcard : Bool := false
  params : List String := []
  fn : Option Nat := none
deriving Repr, DecidableEq

/-- A state-table handler reference as declared by the controller author:
either a direct callable or the name of one of the controller's methods. -/
inductive HRef where
  | direct (f : Nat)
  | byName (m : String)
deriving Repr, DecidableEq

/-- The per-controller data of a controller node: its `$name` debug
label, raw-table size (`_nrStates`), parsed state table (`_states`),
parsed default state (`_defaultState`), and current/previous
descriptors. -/
structure CtrlCore where
  cname : String
  nrStates : Nat := 0
  states : List (String × StateMeta) := []
  defaultState : Option (String × Params) := none
  currentState : Option SState := none
  previousState : Option SState := none
deriving Repr, DecidableEq

/-- The regular expression `/\((.+?)\)/` applied to a state-table key:
the leftmost match takes, after an open paren, one mandatory character
and then everything up to the next close paren (the lazy group must hold
at least one character, so a close paren directly after the open paren is
swallowed into the group); when no close paren follows, the scan restarts
one character further right. -/
def matchParen : List Char → Option (List Char)
  | [] => none
  | c :: rest =>
    if c = '(' then
      match rest with
      | [] => none
      | r0 :: rest2 =>
        if rest2.dropWhile (· ≠ ')') ≠ [] then some (r0 :: rest2.takeWhile (· ≠ ')'))
        else matchParen rest
    else matchParen rest

/-- JavaScript `content.split(/\s*,\s*/)`: split on commas, consuming the
whitespace around each comma (interior boundaries only). -/
def splitCommaWs (s : String) : List String :=
  let ps := charsSplit ',' s.toList
  let n := ps.length
  (List.range n).map (fun i =>
    let p := ps.getD i []
    let p := if i > 0 then p.dropWhile Char.isWhitespace else p
    String.mk (if i + 1 < n then (p.reverse.dropWhile Char.isWhitespace).reverse else p))

/-- Key processing of `_parseStates`: match the params group, cut the key
at the first open paren, and record the wildcard flag or the
relevant-parameter list. -/
def parseKey (key : String) : String × StateMeta :=
  match matchParen key.toList with
  | some content =>
    let k := String.mk (key.toList.takeWhile (· ≠ '('))
    if String.mk content = "*" then (k, { wildcard := true })
    else (k, { params := splitCommaWs (String.mk content) })
  | none => (key, {})

/-- The construction-time errors `_parseStates` / `_parseDefaultState` /
`_resolveFullState` can throw. -/
inductive CErr where
  | invalidFormat (key : String)
  | notLocal (key : String)
  | badHandler (key : String)
  | emptyDefault
  | nonexistentDefault
  | invalidRelative
  | typeError
deriving Repr, DecidableEq

/-- The loop body of `_parseStates` for one raw `key -> handler` pair. -/
def parseStatesStep (debug : Bool) (isValid : String → Bool) (methods : String → Option Nat)
    (acc : List (String × StateMeta)) (kh : String × HRef) :
    Except CErr (List (String × StateMeta)) :=
  let (key, meta) := parseKey kh.1
  if debug ∧ ¬ isValid key then .error (.invalidFormat key)
  else if debug ∧ key.toList.contains '.' then .error (.notLocal key)
  else
    let fnOpt := match kh.2 with
      | .direct f => some f
      | .byName m => methods m
    if debug ∧ fnOpt = none then .error (.badHandler key)
    else .ok (if (acc.lookup key).isSome
              then acc.map (fun kv => if kv.1 = key then (key, { meta with fn := fnOpt }) else kv)
              else acc ++ [(key, { meta with fn := fnOpt })])

/-- `_parseStates` (lines 204-257): build the validated state table from
the raw `key -> handler` mapping.  `isValid` stands for the registry's
name grammar (`stateRegistry.isValid`) and `methods` for dynamic method
lookup on the controller (`this[func]`, `none` when the property is not a
callable).  The grammar, locality and handler checks are executed only
when `debug` holds, as in the source. -/
def parseStates (debug : Bool) (isValid : String → Bool) (methods : String → Option Nat)
    (raw : List (String × HRef)) : Except CErr (List (String × StateMeta) × Nat) :=
  (raw.foldlM (parseStatesStep debug isValid methods) []).map (fun st => (st, raw.length))

/-- The raw `_defaultState` declaration: a bare name or an object. -/
inductive RawDefault where
  | str (s : String)
  | obj (name : String) (params : Params)
deriving Repr, DecidableEq

/-- `_parseDefaultState` (lines 262-279): normalize the default state to
`{name, params}`; the emptiness and existence checks run only in debug
builds, as in the source. -/
def parseDefaultState (debug : Bool) (states : List (String × StateMeta)) :
    Option RawDefault → Except CErr (Option (String × Params))
  | none => .ok none
  | some d =>
    let conv := match d with
      | .str s => (s, ([] : Params))
      | .obj n p => (n, p)
    if debug ∧ conv.1 = "" then .error .emptyDefault
    else if debug ∧ (states.lookup conv.1).isNone then .error .nonexistentDefault
    else .ok (some conv)

/-- The result of `_resolveFullState`: the optional local `name` (absent
for absolute and relative results), the `fullName`, and the params. -/
structure Resolved where
  name : Option String
  fullName : String
  params : Params
deriving Repr, DecidableEq

/-- The ancestor walk of `_resolveFullState` (lines 327-340): for each
ancestor controller that has a current state, prepend its current local
name to the full name and fill missing params from its current params;
stop at the first ancestor without a current state. -/
def ancestorWalk : List CtrlCore → Resolved → Resolved
  | [], st => st
  | a :: rest, st =>
    match a.currentState with
    | none => st
    | some as_ =>
      ancestorWalk rest
        { st with
          fullName := as_.getName ++ (if st.fullName ≠ "" then "." ++ st.fullName else ""),
          params := fillIn st.params as_.getParams }

/-- `_resolveFullState` (lines 293-350).  The uplink chain of ancestor
controllers is `up` (`[]` models a null or non-`Controller` uplink).  In
a debug build a relative name with no controller parent throws the
declared error; in a non-debug build the same situation dereferences the
missing uplink and is modelled as `typeError`. -/
def resolveFullState (debug : Bool) (core : CtrlCore) (up : List CtrlCore) (name : String) :
    Except CErr Resolved :=
  if jsStartsWith name "/" then
    .ok { name := none, fullName := strDrop name 1, params := [] }
  else if jsStartsWith name "../" then
    if debug ∧ up = [] then .error .invalidRelative
    else
      match up with
      | [] => .error .typeError
      | p :: pup =>
        (resolveFullState debug p pup (strDrop name 3)).map (fun st => { st with name := none })
  else
    let base : Resolved :=
      { name := some name, fullName := name,
        params := match core.currentState with
          | some c => mixIn [] c.getParams
          | none => [] }
    let st := ancestorWalk up base
    if name = "" then
      match core.defaultState with
      | some dflt =>
        .ok { st with
              name := some dflt.1,
              fullName := if st.fullName = "" then dflt.1 else st.fullName,
              params := mixIn st.params dflt.2 }
      | none => .ok st
    else .ok st

/-- `_isSameState` (lines 360-378): the base defaults to the current
state; no base means always different; a wildcard entry is always
different; otherwise descriptor equality restricted to the entry's
relevant-parameter keys (a missing entry contributes no keys). -/
def isSameState (core : CtrlCore) (state : SState) (baseState : Option SState) : Bool :=
  match baseState.orElse (fun _ => core.currentState) with
  | none => false
  | some b =>
    let stateMeta := (core.states.lookup state.getName).getD {}
    if stateMeta.wildcard then false
    else b.isEqual state stateMeta.params

/-- Observable events of a delegation run: entry into a controller's
`delegateState`, the current/previous commit (with the id of the new
clone), the cursor advance, the handler invocation, the three non-fatal
diagnostics, the registry `setCurrent` call (with its reported change
flag), the creation of a brand-new descriptor instance, and a JavaScript
runtime crash (`TypeError`). -/
inductive Ev where
  | enter (ctrl : String)
  | commit (ctrl : String) (newId : Nat)
  | advance (ctrl : String)
  | handler (ctrl : String) (stateName : String)
  | warnNoDefault (ctrl : String)
  | warnUnknown (ctrl : String) (name : String)
  | warnNoChild (ctrl : String) (name : String)
  | regSetCurrent (fullName : String) (changed : Bool)
  | created (id : Nat)
  | crash
deriving Repr, DecidableEq

/-- Modelled from the spec: the external state registry (authority).
`current` is its globally-current descriptor, `registered` the set of
full names it recognizes, and `changes` the oracle deciding whether a
`setCurrent` call actually changes the global descriptor. -/
structure Reg where
  current : Option SState
  registered : List String
  changes : String → Params → Bool

/-- The world threaded through a delegation run: the registry, the next
free allocation id (every live descriptor id is below it), and the event
trace. -/
structure DWorld where
  reg : Reg
  fresh : Nat
  trace : List Ev

/-- Append one event to the trace. -/
def emit (w : DWorld) (e : Ev) : DWorld := { w with trace := w.trace ++ [e] }

/-- Whether the registry's current descriptor is the very object `s`
(JavaScript `stateRegistry.getCurrent() === state`). -/
def regIs (w : DWorld) (s : SState) : Bool :=
  match w.reg.current with
  | some c => c.id == s.id
  | none => false

/-- After an in-place mutation of the shared descriptor `s`, refresh the
registry's view of it when the registry holds that same object. -/
def syncReg (w : DWorld) (s : SState) : DWorld :=
  match w.reg.current with
  | some c => if c.id == s.id then { w with reg := { w.reg with current := some s } } else w
  | none => w

/-- A controller subtree: a controller node with its ordered downlinks,
or a downlink that is not a `Controller` (skipped by propagation). -/
inductive CtrlT where
  | other : CtrlT
  | node : CtrlCore → List CtrlT → CtrlT

/-- The input of `delegateState`: no argument (use the registry's
current), a descriptor instance, or a parameter bag wrapping a
pending-transition `$info` envelope. -/
inductive DIn where
  | noArg
  | st (s : SState)
  | bag (newState : SState)
deriving Repr

/-- The result of a `delegateState` run: the updated subtree, the passed
descriptor after its in-place mutations, the world, and whether the call
returned the controller instance (`true`) or `undefined` (`false`). -/
structure DRes where
  ctrl : CtrlT
  state : Option SState
  world : DWorld
  ret : Bool

/-- `_fillStateIfEmpty` (lines 188-199): when this controller has a
default state, fill missing params if the descriptor already carries the
default's name, or append the default's name as a new final segment (and
fill its params) when the descriptor has no local name. -/
def fillStateIfEmpty (core : CtrlCore) (s : SState) : SState :=
  match core.defaultState with
  | none => s
  | some dflt =>
    if s.getName = dflt.1 then { s with params := fillIn s.params dflt.2 }
    else if s.getName = "" then
      { s.setFullName (s.getFullName ++ "." ++ dflt.1) with params := fillIn s.params dflt.2 }
    else s

/-- `_setCurrentState` (lines 386-401): previous := current, current :=
clone of the descriptor; then, if the descriptor is the registry's
current object and the full names differ, push this node's full name onto
the shared descriptor.  Returns the updated core, the clone, the (possibly
mutated) shared descriptor and the world. -/
def setCurrentState (core : CtrlCore) (s : SState) (w : DWorld) :
    CtrlCore × SState × SState × DWorld :=
  let cloned := s.clone w.fresh
  let w := { w with fresh := w.fresh + 1 }
  let core' := { core with previousState := core.currentState, currentState := some cloned }
  let w := emit w (.commit core.cname cloned.id)
  let s := if regIs w s ∧ s.getFullName ≠ cloned.getFullName
           then s.setFullName cloned.getFullName else s
  let w := syncReg w s
  (core', cloned, s, w)

/-- `_performStateChange` (lines 408-420): commit the internal state,
advance the descriptor's cursor, then invoke the handler bound to the
committed local name with the descriptor's params (an unresolved handler
crashes, as `undefined.call` would). -/
def performStateChange (core : CtrlCore) (s : SState) (w : DWorld) :
    CtrlCore × SState × DWorld :=
  let (core', cloned, s, w) := setCurrentState core s w
  let s := s.next
  let w := emit (syncReg w s) (.advance core.cname)
  let w := match (core'.states.lookup cloned.getName).bind StateMeta.fn with
    | some _ => emit w (.handler core.cname cloned.getName)
    | none => emit w .crash
  (core', s, w)

/-- The full-name reconciliation at the end of `delegateState` (lines
161-164): when the registry's current is still this very descriptor and
the committed current state kept the delegated name, copy the
descriptor's (possibly refined) full name onto the own current state. -/
def reconcileFullName (name : String) (s : SState) (w : DWorld) :
    Option SState → Option SState
  | some c =>
    if regIs w s ∧ c.getName = name then some (c.setFullName s.getFullName) else some c
  | none => none

/-- Whether a downlink is a controller whose state table declares the
given local name (the scan test of `_propagateState`, line 457). -/
def declares (name : String) : CtrlT → Bool
  | .other => false
  | .node c _ => (c.states.lookup name).isSome

mutual

/-- `delegateState` (lines 115-167): normalize the input, fill defaults,
run the no-op diagnostics, then either perform the state change or
propagate to the downlinks, and finally reconcile the full name. -/
def delegateState (debug : Bool) : CtrlT → DIn → DWorld → DRes
  | .other, _, w => ⟨.other, none, w, false⟩
  | .node core downs, input, w =>
    let w := emit w (.enter core.cname)
    match (match input with
           | .noArg => w.reg.current
           | .st s => some s
           | .bag s => some s) with
    | none => ⟨.node core downs, none, emit w .crash, false⟩
    | some s0 =>
      let s1 := fillStateIfEmpty core s0
      let w := syncReg w s1
      let name := s1.getName
      if name = "" then
        let w := if debug ∧ core.nrStates ≠ 0 then emit w (.warnNoDefault core.cname) else w
        ⟨.node core downs, some s1, w, false⟩
      else if (core.states.lookup name).isNone then
        let w := if debug then emit w (.warnUnknown core.cname name) else w
        ⟨.node core downs, some s1, w, false⟩
      else
        let r :=
          if ¬ isSameState core s1 none then
            let (core', s2, w2) := performStateChange core s1 w
            (core', downs, s2, w2)
          else propagateState debug core downs s1 w
        let core' := { r.1 with currentState := reconcileFullName name r.2.2.1 r.2.2.2 r.1.currentState }
        ⟨.node core' r.2.1, some r.2.2.1, r.2.2.2, true⟩
termination_by c _ _ => (sizeOf c, 2)
decreasing_by all_goals (simp_wf; omega)

/-- `_propagateState` (lines 427-466): commit the internal state, advance
the cursor, then hand the descriptor to the first matching downlink. -/
def propagateState (debug : Bool) (core : CtrlCore) (downs : List CtrlT) (s : SState)
    (w : DWorld) : CtrlCore × List CtrlT × SState × DWorld :=
  let (core', _cloned, s, w) := setCurrentState core s w
  let s := s.next
  let w := emit (syncReg w s) (.advance core.cname)
  let (downs', s', w') := propagateScan debug core.cname s.getName s.getFullName s w downs
  (core', downs', s', w')
termination_by (sizeOf downs, 1)
decreasing_by all_goals omega

/-- The downlink scan of `_propagateState` (lines 443-465): skip
non-controllers; with no remaining name, recurse into the first child
whose default full path is registered; otherwise recurse into the first
child declaring the name; after an exhausted scan, warn when a name was
expected. -/
def propagateScan (debug : Bool) (cname name fullName : String) (s : SState) (w : DWorld) :
    List CtrlT → List CtrlT × SState × DWorld
  | [] =>
    ([], s, if name ≠ "" ∧ debug then emit w (.warnNoChild cname name) else w)
  | c :: rest =>
    match c with
    | .other =>
      let (rest', s', w') := propagateScan debug cname name fullName s w rest
      (.other :: rest', s', w')
    | .node ccore cdowns =>
      if name = "" then
        match ccore.defaultState with
        | some dflt =>
          if w.reg.registered.contains (fullName ++ "." ++ dflt.1) then
            let r := delegateState debug (.node ccore cdowns) (.st s) w
            (r.ctrl :: rest, r.state.getD s, r.world)
          else
            let (rest', s', w') := propagateScan debug cname name fullName s w rest
            (.node ccore cdowns :: rest', s', w')
        | none =>
          let (rest', s', w') := propagateScan debug cname name fullName s w rest
          (.node ccore cdowns :: rest', s', w')
      else if (ccore.states.lookup name).isSome then
        let r := delegateState debug (.node ccore cdowns) (.st s) w
        (r.ctrl :: rest, r.state.getD s, r.world)
      else
        let (rest', s', w') := propagateScan debug cname name fullName s w rest
        (.node ccore cdowns :: rest', s', w')
termination_by downs => (sizeOf downs, 0)
decreasing_by all_goals (simp_wf; omega)

end

/-- Modelled from the spec: `stateRegistry.setCurrent(fullName, params,
options)` — reports whether the global descriptor actually changed; on a
change it installs a freshly created descriptor for the given full name. -/
def regSetCurrent (w : DWorld) (fullName : String) (ps : Params) : Bool × DWorld :=
  if w.reg.changes fullName ps then
    (true,
     { reg := { w.reg with current := some ⟨w.fresh, splitDot fullName, 0, ps⟩ },
       fresh := w.fresh + 1,
       trace := w.trace ++ [.regSetCurrent fullName true] })
  else (false, emit w (.regSetCurrent fullName false))

/-- `setState` (lines 71-106) on a controller with data `core`, downlinks
`downs` and ancestor chain `up`: resolve the state, merge the explicit
params, then either install an absolute state on the registry, abort when
the registry reports an actual change, resume delegation with the
registry's existing descriptor sought to the local name, or create a
brand-new descriptor (with its `$info` envelope on the params) and
delegate it. -/
def setState (debug : Bool) (core : CtrlCore) (downs : List CtrlT) (up : List CtrlCore)
    (name : Option String) (params : Params) (w : DWorld) : Except CErr DRes :=
  match resolveFullState debug core up (name.getD "") with
  | .error e => .error e
  | .ok st0 =>
    let stateMeta := { st0 with params := mixIn st0.params params }
    match stateMeta.name with
    | none =>
      let (_, w) := regSetCurrent w stateMeta.fullName stateMeta.params
      .ok ⟨.node core downs, none, w, true⟩
    | some n =>
      if w.reg.registered.contains stateMeta.fullName then
        match regSetCurrent w stateMeta.fullName stateMeta.params with
        | (true, w) => .ok ⟨.node core downs, none, w, true⟩
        | (false, w) =>
          match w.reg.current with
          | none => .ok ⟨.node core downs, none, emit w .crash, false⟩
          | some cur =>
            let state := cur.seekTo n
            let w := syncReg w state
            .ok (delegateState debug (.node core downs) (.st state) w)
      else
        let state : SState := ⟨w.fresh, splitDot n, 0, objSet stateMeta.params "$info" ""⟩
        let w := { w with fresh := w.fresh + 1, trace := w.trace ++ [.created w.fresh] }
        .ok (delegateState debug (.node core downs) (.st state) w)

/-! ### Association-list lookup lemmas -/

theorem lookup_cons (a k b : String) (es : Params) :
    List.lookup a ((k, b) :: es) = if a = k then some b else List.lookup a es := by
  rw [List.lookup]
  by_cases h : a = k
  · simp [h]
  · have hb : (a == k) = false := beq_eq_false_iff_ne.mpr h
    simp [hb, h]

theorem lookup_not_mem_keys (l : Params) (k : String) (h : k ∉ l.map Prod.fst) :
    l.lookup k = none := by
  induction l with
  | nil => rfl
  | cons hd tl ih =>
    obtain ⟨a, b⟩ := hd
    rw [lookup_cons]
    simp only [List.map_cons, List.mem_cons, not_or] at h
    simp [h.1, ih h.2]

theorem lookup_mapset (o : Params) (k v k') :
    (o.map (fun kv => if kv.1 = k then (k, v) else kv)).lookup k'
      = if k' = k then (o.lookup k).map (fun _ => v) else o.lookup k' := by
  induction o with
  | nil => simp [List.lookup]
  | cons hd tl ih =>
    obtain ⟨a, b⟩ := hd
    by_cases e1 : a = k
    · subst e1
      simp only [List.map_cons, if_pos rfl, lookup_cons]
      by_cases e2 : k' = a
      · subst e2; simp [lookup_cons]
      · simp [lookup_cons, e2, ih]
    · simp only [List.map_cons, if_neg e1, lookup_cons]
      have e3 : ¬ k = a := fun hh => e1 hh.symm
      by_cases e2 : k' = a
      · subst e2
        simp [lookup_cons, e1, e3]
      · simp [lookup_cons, e2, ih, e3]

theorem lookup_append_one (o : Params) (k v k') :
    (o ++ [(k, v)]).lookup k'
      = ((o.lookup k').orElse (fun _ => if k' = k then some v else none)) := by
  induction o with
  | nil => simp only [List.nil_append, lookup_cons, List.lookup_nil]; rfl
  | cons hd tl ih =>
    obtain ⟨a, b⟩ := hd
    by_cases e2 : k' = a
    · subst e2; simp [lookup_cons]
    · simp [lookup_cons, e2, ih]

theorem lookup_objSet (o : Params) (k v k') :
    (objSet o k v).lookup k' = if k' = k then some v else o.lookup k' := by
  unfold objSet
  split
  · rename_i h
    rw [lookup_mapset]
    by_cases e : k' = k
    · subst e
      obtain ⟨w, hw⟩ := Option.isSome_iff_exists.mp h
      simp [hw]
    · simp [e]
  · rename_i h
    rw [lookup_append_one]
    by_cases e : k' = k
    · subst e
      have hn : o.lookup k' = none := Option.not_isSome_iff_eq_none.mp h
      simp [hn]
    · by_cases e2 : (o.lookup k').isSome
      · obtain ⟨w, hw⟩ := Option.isSome_iff_exists.mp e2
        simp [hw, e]
      · have hn : o.lookup k' = none := Option.not_isSome_iff_eq_none.mp e2
        simp [hn, e]

theorem lookup_mixIn (a b : Params) (hb : (b.map Prod.fst).Nodup) (k : String) :
    (mixIn a b).lookup k = ((b.lookup k).orElse (fun _ => a.lookup k)) := by
  induction b generalizing a with
  | nil => simp [mixIn, List.lookup]
  | cons hd tl ih =>
    obtain ⟨bk, bv⟩ := hd
    have htl : (tl.map Prod.fst).Nodup := (List.nodup_cons.mp hb).2
    have hni : bk ∉ tl.map Prod.fst := (List.nodup_cons.mp hb).1
    have hstep : mixIn a ((bk, bv) :: tl) = mixIn (objSet a bk bv) tl := rfl
    rw [hstep, ih _ htl, lookup_cons]
    by_cases e : k = bk
    · subst e
      have hnone : tl.lookup k = none := lookup_not_mem_keys tl k hni
      simp [hnone, lookup_objSet]
    · by_cases e2 : (tl.lookup k).isSome
      · obtain ⟨w, hw⟩ := Option.isSome_iff_exists.mp e2
        simp [hw, e]
      · have hn : tl.lookup k = none := Option.not_isSome_iff_eq_none.mp e2
        simp [hn, lookup_objSet, e]

theorem lookup_fillIn (a b : Params) (k : String) :
    (fillIn a b).lookup k = ((a.lookup k).orElse (fun _ => b.lookup k)) := by
  induction b generalizing a with
  | nil => simp [fillIn, List.lookup]
  | cons hd tl ih =>
    obtain ⟨bk, bv⟩ := hd
    have hstep : fillIn a ((bk, bv) :: tl)
        = fillIn (if (a.lookup bk).isSome then a else objSet a bk bv) tl := rfl
    rw [hstep, lookup_cons]
    by_cases hs : (a.lookup bk).isSome
    · rw [if_pos hs, ih]
      by_cases e : k = bk
      · subst e
        obtain ⟨w, hw⟩ := Option.isSome_iff_exists.mp hs
        simp [hw]
      · simp [e]
    · rw [if_neg hs, ih]
      rw [lookup_objSet]
      have hn : a.lookup bk = none := Option.not_isSome_iff_eq_none.mp hs
      by_cases e : k = bk
      · subst e
        simp [hn]
      · simp [e]

/-! ### Claim theorems -/

/-- C8: for every controller, ancestor chain and build flavour, resolving
a name that starts with the path-root marker `/` yields exactly the input
with the marker stripped as full name, no local-name field, and an empty
parameter bag (nothing inherited from the controller's current state or
any ancestor); consequently merging any explicit parameter mapping with
unique keys over the result gives exactly the explicit parameters. -/
theorem C8_absolute_resolution (debug : Bool) (core : CtrlCore) (up : List CtrlCore)
    (name : String) (h : jsStartsWith name "/" = true) :
    resolveFullState debug core up name
      = .ok { name := none, fullName := strDrop name 1, params := [] } ∧
    ∀ p : Params, (p.map Prod.fst).Nodup →
      ∀ k, (mixIn ([] : Params) p).lookup k = p.lookup k := by
  constructor
  · rw [resolveFullState.eq_def, if_pos h]
  · intro p hp k
    rw [lookup_mixIn _ _ hp]
    cases hl : p.lookup k <;> simp [hl]

/-- C8 witness: the concrete resolution of `"/foo.bar"` under an ancestor
that is in a state, with explicit params `a=1`. -/
theorem C8_absolute_resolution_witness :
    resolveFullState true
        { cname := "child", currentState := some ⟨3, ["child"], 0, [("c", "9")]⟩ }
        [{ cname := "root", currentState := some ⟨2, ["root"], 0, [("r", "8")]⟩ }]
        "/foo.bar"
      = .ok { name := none, fullName := "foo.bar", params := [] } ∧
    ∀ p : Params, (p.map Prod.fst).Nodup →
      ∀ k, (mixIn ([] : Params) p).lookup k = p.lookup k :=
  C8_absolute_resolution true
    { cname := "child", currentState := some ⟨3, ["child"], 0, [("c", "9")]⟩ }
    [{ cname := "root", currentState := some ⟨2, ["root"], 0, [("r", "8")]⟩ }]
    "/foo.bar" (by decide)

/-- C3: the three comparison modes of `_isSameState` — a wildcard-declared
local name is never the same (against any base, itself included); a local
name declared with an empty relevant-parameter list is the same as any
base descriptor carrying the same name, whatever the parameters; and with
no current state and no explicit base the answer is always `false`. -/
theorem C3_isSameState_modes (core : CtrlCore) (s : SState) :
    (∀ m, core.states.lookup s.getName = some m → m.wildcard = true →
      ∀ b : Option SState, isSameState core s b = false)
  ∧ (∀ m, core.states.lookup s.getName = some m → m.wildcard = false → m.params = [] →
      ∀ b : SState, b.getName = s.getName → isSameState core s (some b) = true)
  ∧ (core.currentState = none → isSameState core s none = false) := by
  refine ⟨?_, ?_, ?_⟩
  · intro m hm hw b
    cases b with
    | none =>
      unfold isSameState
      cases hc : core.currentState with
      | none => simp [hc, Option.orElse]
      | some c => simp [hc, hm, hw, Option.orElse]
    | some b => simp [isSameState, hm, hw, Option.orElse]
  · intro m hm hw hp b hb
    simp [isSameState, hm, hw, SState.isEqual, hp, hb, Option.orElse]
  · intro hc
    simp [isSameState, hc, Option.orElse]

/-- C3 witness: a table parsed from `edit(*)` and `list` declarations; the
wildcard state differs from itself, the param-free state matches despite a
parameter difference, and a stateless controller matches nothing. -/
theorem C3_isSameState_modes_witness :
    isSameState
      { cname := "w", nrStates := 2,
        states := [("edit", { wildcard := true, fn := some 1 }), ("list", { fn := some 2 })] }
      ⟨4, ["edit"], 0, [("id", "1")]⟩ (some ⟨4, ["edit"], 0, [("id", "1")]⟩) = false
  ∧ isSameState
      { cname := "w", nrStates := 2,
        states := [("edit", { wildcard := true, fn := some 1 }), ("list", { fn := some 2 })] }
      ⟨5, ["list"], 0, [("page", "2")]⟩ (some ⟨6, ["list"], 0, [("page", "7")]⟩) = true
  ∧ isSameState { cname := "empty" } ⟨7, ["list"], 0, []⟩ none = false := by
  refine ⟨?_, ?_, ?_⟩
  · exact (C3_isSameState_modes
      { cname := "w", nrStates := 2,
        states := [("edit", { wildcard := true, fn := some 1 }), ("list", { fn := some 2 })] }
      ⟨4, ["edit"], 0, [("id", "1")]⟩).1
      { wildcard := true, fn := some 1 } (by decide) rfl (some ⟨4, ["edit"], 0, [("id", "1")]⟩)
  · exact (C3_isSameState_modes
      { cname := "w", nrStates := 2,
        states := [("edit", { wildcard := true, fn := some 1 }), ("list", { fn := some 2 })] }
      ⟨5, ["list"], 0, [("page", "2")]⟩).2.1
      { fn := some 2 } (by decide) rfl rfl ⟨6, ["list"], 0, [("page", "7")]⟩ rfl
  · exact (C3_isSameState_modes { cname := "empty" } ⟨7, ["list"], 0, []⟩).2.2 rfl

/-- C1 (amended): when `_resolveFullState` runs on an empty name and the
controller declares a default state, the result's local name is the
default's name and the full name falls back to the default's name only
when still empty; but the default's params are merged with `mixIn`, so a
key declared in the default's params always ends up with the default's
value — overwriting a value inherited from the controller's current state
or its ancestors — and only keys absent from the default keep their
inherited values. -/
theorem C1_default_substitution (debug : Bool) (core : CtrlCore) (up : List CtrlCore)
    (dn : String) (dp : Params)
    (hd : core.defaultState = some (dn, dp)) (hnd : (dp.map Prod.fst).Nodup) :
    ∃ st : Resolved,
      st = ancestorWalk up
            { name := some "", fullName := "",
              params := match core.currentState with
                | some c => mixIn [] c.getParams
                | none => [] } ∧
      resolveFullState debug core up ""
        = .ok { name := some dn,
                fullName := if st.fullName = "" then dn else st.fullName,
                params := mixIn st.params dp } ∧
      (∀ k v, dp.lookup k = some v → (mixIn st.params dp).lookup k = some v) ∧
      (∀ k, dp.lookup k = none → (mixIn st.params dp).lookup k = st.params.lookup k) := by
  refine ⟨_, rfl, ?_, ?_, ?_⟩
  · rw [resolveFullState.eq_def]
    simp only [show jsStartsWith "" "/" = false from rfl,
      show jsStartsWith "" "../" = false from rfl, Bool.false_eq_true, if_false, hd]
    simp
  · intro k v hk
    rw [lookup_mixIn _ _ hnd, hk]
    rfl
  · intro k hk
    rw [lookup_mixIn _ _ hnd, hk]
    cases h : List.lookup k (ancestorWalk up
      { name := some "", fullName := "",
        params := match core.currentState with
          | some c => mixIn [] c.getParams
          | none => [] }).params <;> simp [h]

/-- C1 witness: a controller whose current state carries `x=1` and whose
default declares `x=2, y=3`: resolving the empty name substitutes the
default name and the default params win on collision. -/
theorem C1_default_substitution_witness :
    ∃ st : Resolved,
      st = ancestorWalk []
            { name := some "", fullName := "",
              params := mixIn [] (SState.getParams ⟨0, ["home"], 0, [("x", "1")]⟩) } ∧
      resolveFullState false
          { cname := "demo", nrStates := 1,
            states := [("home", { fn := some 0 })],
            defaultState := some ("home", [("x", "2"), ("y", "3")]),
            currentState := some ⟨0, ["home"], 0, [("x", "1")]⟩ }
          [] ""
        = .ok { name := some "home",
                fullName := if st.fullName = "" then "home" else st.fullName,
                params := mixIn st.params [("x", "2"), ("y", "3")] } ∧
      (∀ k v, (([("x", "2"), ("y", "3")] : Params).lookup k) = some v →
        (mixIn st.params [("x", "2"), ("y", "3")]).lookup k = some v) ∧
      (∀ k, (([("x", "2"), ("y", "3")] : Params).lookup k) = none →
        (mixIn st.params [("x", "2"), ("y", "3")]).lookup k = st.params.lookup k) :=
  C1_default_substitution false
    { cname := "demo", nrStates := 1,
      states := [("home", { fn := some 0 })],
      defaultState := some ("home", [("x", "2"), ("y", "3")]),
      currentState := some ⟨0, ["home"], 0, [("x", "1")]⟩ }
    [] "home" [("x", "2"), ("y", "3")] rfl (by decide)

/-- C1 counterexample: the claim says a parameter key already present
from the controller's current state is never overwritten by the default's
params; on this controller the inherited `x=1` is overwritten to the
default's `x=2` (`mixIn`, not `fillIn`, is applied). -/
theorem C1_counterexample :
    resolveFullState false
        { cname := "demo", nrStates := 1,
          states := [("home", { fn := some 0 })],
          defaultState := some ("home", [("x", "2")]),
          currentState := some ⟨0, ["home"], 0, [("x", "1")]⟩ }
        [] ""
      = .ok { name := some "home", fullName := "home", params := [("x", "2")] }
  ∧ fillIn ([("x", "1")] : Params) [("x", "2")] = [("x", "1")] := by
  constructor
  · rfl
  · rfl

/-- In a non-debug build the `_parseStates` loop can never fail: none of
its validation branches is reachable. -/
theorem nodebug_parse_ok (isValid : String → Bool) (methods : String → Option Nat) :
    ∀ (raw : List (String × HRef)) (acc : List (String × StateMeta)),
      ∃ st, List.foldlM (parseStatesStep false isValid methods) acc raw = .ok st := by
  intro raw
  induction raw with
  | nil => exact fun acc => ⟨acc, rfl⟩
  | cons a l ih =>
    intro acc
    have hstep : ∃ acc', parseStatesStep false isValid methods acc a = .ok acc' := by
      simp [parseStatesStep]
    obtain ⟨acc', ha⟩ := hstep
    obtain ⟨st, hst⟩ := ih acc'
    exact ⟨st, by rw [List.foldlM_cons, ha]; simpa using hst⟩

/-- C2 (amended): the five structural declaration errors stop controller
construction / resolution only in debug builds — an invalid-grammar key,
a dot-containing key, an unresolvable handler reference, an empty or
unknown default-state name, and a relative resolution without a
controller parent each raise their declared error when `debug` holds; in
a non-debug build the state-table and default-state parsing never raise
(the misdeclaration is accepted silently), and only the parent-less
relative resolution still fails, with a `TypeError` from dereferencing
the missing uplink rather than the declared error. -/
theorem C2_construction_errors_debug_only :
    (∀ (isValid : String → Bool) (methods : String → Option Nat) key href rest k meta,
      parseKey key = (k, meta) → isValid k = false →
      parseStates true isValid methods ((key, href) :: rest) = .error (.invalidFormat k))
  ∧ (∀ (isValid : String → Bool) (methods : String → Option Nat) key href rest k meta,
      parseKey key = (k, meta) → isValid k = true → k.toList.contains '.' = true →
      parseStates true isValid methods ((key, href) :: rest) = .error (.notLocal k))
  ∧ (∀ (isValid : String → Bool) (methods : String → Option Nat) key mname rest k meta,
      parseKey key = (k, meta) → isValid k = true → k.toList.contains '.' = false →
      methods mname = none →
      parseStates true isValid methods ((key, .byName mname) :: rest) = .error (.badHandler k))
  ∧ (∀ states, parseDefaultState true states (some (.str "")) = .error .emptyDefault)
  ∧ (∀ states n p, n ≠ "" → states.lookup n = none →
      parseDefaultState true states (some (.obj n p)) = .error .nonexistentDefault)
  ∧ (∀ (core : CtrlCore) nm, jsStartsWith nm "/" = false → jsStartsWith nm "../" = true →
      resolveFullState true core [] nm = .error .invalidRelative)
  ∧ (∀ (isValid : String → Bool) (methods : String → Option Nat) raw,
      ∃ v, parseStates false isValid methods raw = .ok v)
  ∧ (∀ states d, ∃ v, parseDefaultState false states d = .ok v)
  ∧ (∀ (core : CtrlCore) nm, jsStartsWith nm "/" = false → jsStartsWith nm "../" = true →
      resolveFullState false core [] nm = .error .typeError) := by
  refine ⟨?_, ?_, ?_, ?_, ?_, ?_, ?_, ?_, ?_⟩
  · intro isValid methods key href rest k meta hpk hiv
    simp [parseStates, List.foldlM_cons, parseStatesStep, hpk, hiv, Except.map, Except.bind,
      Bind.bind]
  · intro isValid methods key href rest k meta hpk hiv hdot
    have hd2 : '.' ∈ k.data := by simpa [String.toList] using hdot
    simp [parseStates, List.foldlM_cons, parseStatesStep, hpk, hiv, hd2, Except.map,
      Except.bind, Bind.bind]
  · intro isValid methods key mname rest k meta hpk hiv hdot hm
    have hd2 : '.' ∉ k.data := by simpa [String.toList] using hdot
    simp [parseStates, List.foldlM_cons, parseStatesStep, hpk, hiv, hd2, hm, Except.map,
      Except.bind, Bind.bind]
  · intro states
    simp [parseDefaultState]
  · intro states n p hn hl
    simp [parseDefaultState, hn, hl]
  · intro core nm h1 h2
    rw [resolveFullState.eq_def]
    simp [h1, h2]
  · intro isValid methods raw
    obtain ⟨st, hst⟩ := nodebug_parse_ok isValid methods raw []
    exact ⟨(st, raw.length), by simp [parseStates, hst, Except.map]⟩
  · intro states d
    cases d with
    | none => exact ⟨none, rfl⟩
    | some x => cases x with
      | str s => exact ⟨some (s, []), by simp [parseDefaultState]⟩
      | obj n p => exact ⟨some (n, p), by simp [parseDefaultState]⟩
  · intro core nm h1 h2
    rw [resolveFullState.eq_def]
    simp [h1, h2]

/-- C2 witness: each of the five misdeclarations raising its error in a
debug build, and the same misdeclarations passing (or failing with a
`TypeError`) in a non-debug build. -/
theorem C2_construction_errors_debug_only_witness :
    parseStates true (fun k => decide (k = "good")) (fun _ => none) [("bad name", .direct 0)]
      = .error (.invalidFormat "bad name")
  ∧ parseStates true (fun _ => true) (fun _ => none) [("a.b", .direct 0)]
      = .error (.notLocal "a.b")
  ∧ parseStates true (fun _ => true) (fun _ => none) [("list", .byName "missing")]
      = .error (.badHandler "list")
  ∧ parseDefaultState true [] (some (.str "")) = .error .emptyDefault
  ∧ parseDefaultState true [] (some (.obj "x" [])) = .error .nonexistentDefault
  ∧ resolveFullState true { cname := "root" } [] "../x" = .error .invalidRelative
  ∧ (∃ v, parseStates false (fun _ => false) (fun _ => none) [("a.b", .byName "z")] = .ok v)
  ∧ (∃ v, parseDefaultState false [] (some (.str "")) = .ok v)
  ∧ resolveFullState false { cname := "root" } [] "../x" = .error .typeError := by
  refine ⟨?_, ?_, ?_, ?_, ?_, ?_, ?_, ?_, ?_⟩
  · exact C2_construction_errors_debug_only.1 _ _ _ _ _ _ _ rfl (by decide)
  · exact C2_construction_errors_debug_only.2.1 _ _ _ _ _ _ _ rfl rfl (by decide)
  · exact C2_construction_errors_debug_only.2.2.1 _ _ _ _ _ _ _ rfl rfl (by decide) rfl
  · exact C2_construction_errors_debug_only.2.2.2.1 []
  · exact C2_construction_errors_debug_only.2.2.2.2.1 [] "x" [] (by decide) rfl
  · exact C2_construction_errors_debug_only.2.2.2.2.2.1 { cname := "root" } "../x"
      (by decide) (by decide)
  · exact C2_construction_errors_debug_only.2.2.2.2.2.2.1 _ _ _
  · exact C2_construction_errors_debug_only.2.2.2.2.2.2.2.1 [] _
  · exact C2_construction_errors_debug_only.2.2.2.2.2.2.2.2 { cname := "root" } "../x"
      (by decide) (by decide)

/-- C2 counterexample: the claim says these errors are raised in every
build; in a non-debug build a state key that is simultaneously invalid,
non-local (it contains a dot) and bound to an unresolvable handler is
accepted and construction succeeds. -/
theorem C2_counterexample :
    parseStates false (fun _ => false) (fun _ => none) [("a.b", .byName "missing")]
      = .ok ([("a.b", { wildcard := false, params := [], fn := none })], 1)
  ∧ ("a.b".toList.contains '.') = true := by
  exact ⟨rfl, rfl⟩

/-- `syncReg` never touches the trace. -/
theorem syncReg_trace (w : DWorld) (s : SState) : (syncReg w s).trace = w.trace := by
  unfold syncReg
  cases w.reg.current with
  | none => rfl
  | some c => dsimp only; split <;> rfl

/-- `syncReg` never touches the allocation counter. -/
theorem syncReg_fresh (w : DWorld) (s : SState) : (syncReg w s).fresh = w.fresh := by
  unfold syncReg
  cases w.reg.current with
  | none => rfl
  | some c => dsimp only; split <;> rfl

/-- Characterization of `_setCurrentState`: the core is committed, the
clone is returned, the shared descriptor is returned unchanged (a fresh
clone always carries the same full name, so the reconciling write inside
`_setCurrentState` never fires), and the world gained exactly the commit
event and one allocation. -/
theorem setCurrentState_eq (core : CtrlCore) (s : SState) (w : DWorld) :
    setCurrentState core s w
      = ({ core with previousState := core.currentState,
                     currentState := some (s.clone w.fresh) },
         s.clone w.fresh, s,
         syncReg (emit { w with fresh := w.fresh + 1 } (.commit core.cname w.fresh)) s) := by
  unfold setCurrentState
  have hfn : (SState.mk w.fresh s.segments s.cursor s.params).getFullName = s.getFullName :=
    rfl
  simp [SState.clone, hfn]

/-- C6: within one delegation, the controller commits its own state
update (`previous := current`, `current := clone of the descriptor`) and
then advances the descriptor's cursor strictly before the handler runs or
any child is recursed into: `_performStateChange` emits exactly the
commit event, then the advance event, then the handler invocation; and
`_propagateState` hands its downlink scan (the only place children are
recursed into) a world whose trace already ends with the commit and
advance events, with the committed core already in place. -/
theorem C6_commit_before_handler_and_children :
    (∀ (core : CtrlCore) (s : SState) (w : DWorld),
      (∃ hev, (performStateChange core s w).2.2.trace
          = w.trace ++ [Ev.commit core.cname w.fresh, Ev.advance core.cname, hev])
      ∧ (performStateChange core s w).1.currentState = some (s.clone w.fresh)
      ∧ (performStateChange core s w).1.previousState = core.currentState)
  ∧ (∀ (debug : Bool) (core : CtrlCore) (downs : List CtrlT) (s : SState) (w : DWorld),
      ∃ w2 : DWorld,
        w2.trace = w.trace ++ [Ev.commit core.cname w.fresh, Ev.advance core.cname]
      ∧ (propagateState debug core downs s w).1.currentState = some (s.clone w.fresh)
      ∧ (propagateState debug core downs s w).1.previousState = core.currentState
      ∧ (propagateState debug core downs s w).2
          = propagateScan debug core.cname (s.next.getName) (s.next.getFullName) s.next w2
              downs) := by
  constructor
  · intro core s w
    refine ⟨?_, ?_, ?_⟩
    · cases hm : (core.states.lookup (s.clone w.fresh).getName).bind StateMeta.fn with
      | none =>
        exact ⟨Ev.crash, by
          simp [performStateChange, setCurrentState_eq, hm, emit, syncReg_trace]⟩
      | some f =>
        exact ⟨Ev.handler core.cname (s.clone w.fresh).getName, by
          simp [performStateChange, setCurrentState_eq, hm, emit, syncReg_trace]⟩
    · simp [performStateChange, setCurrentState_eq]
    · simp [performStateChange, setCurrentState_eq]
  · intro debug core downs s w
    refine ⟨emit (syncReg (syncReg (emit { w with fresh := w.fresh + 1 }
        (.commit core.cname w.fresh)) s) s.next) (.advance core.cname), ?_, ?_, ?_, ?_⟩
    · simp [emit, syncReg_trace]
    · simp [propagateState, setCurrentState_eq]
    · simp [propagateState, setCurrentState_eq]
    · simp [propagateState, setCurrentState_eq]

/-- C9: after a state commit the controller's current state is a clone
carrying a brand-new allocation id — distinct from the delegated
descriptor's id and from every pre-existing descriptor id (every
descriptor alive before the commit, whether held by another node or by
the registry, has an id below the world's allocation counter) — and the
reconciliation step at the end of `delegateState` can only rewrite the
own current state's full name (its segments): id, cursor and params are
untouched, and the result is either unchanged or the old state with the
delegated descriptor's full-name string written onto it. -/
theorem C9_current_state_never_aliased (core : CtrlCore) (s : SState) (w : DWorld)
    (hs : s.id < w.fresh) :
    (setCurrentState core s w).1.currentState = some (s.clone w.fresh)
  ∧ (s.clone w.fresh).id ≠ s.id
  ∧ (∀ o : Nat, o < w.fresh → (s.clone w.fresh).id ≠ o)
  ∧ (∀ (nm : String) (sx : SState) (wx : DWorld) (c c' : SState),
      reconcileFullName nm sx wx (some c) = some c' →
      c'.id = c.id ∧ c'.cursor = c.cursor ∧ c'.params = c.params ∧
      (c' = c ∨ c' = c.setFullName sx.getFullName)) := by
  refine ⟨?_, ?_, ?_, ?_⟩
  · simp [setCurrentState_eq]
  · simp only [SState.clone]
    intro h
    rw [h] at hs
    omega
  · intro o ho
    simp only [SState.clone]
    intro h
    rw [h] at ho
    omega
  · intro nm sx wx c c' h
    simp only [reconcileFullName] at h
    by_cases hc : regIs wx sx = true ∧ c.getName = nm
    · rw [if_pos hc] at h
      cases h
      exact ⟨rfl, rfl, rfl, Or.inr rfl⟩
    · rw [if_neg hc] at h
      cases h
      exact ⟨rfl, rfl, rfl, Or.inl rfl⟩

/-- C9 witness: committing a descriptor with id 5 in a world whose
allocation counter is 7 yields a current state with the fresh id 7,
different from 5 and from every pre-existing id. -/
theorem C9_current_state_never_aliased_witness :
    (setCurrentState { cname := "n" } ⟨5, ["list"], 0, []⟩
        ⟨⟨none, [], fun _ _ => false⟩, 7, []⟩).1.currentState
      = some ((⟨5, ["list"], 0, []⟩ : SState).clone 7)
  ∧ ((⟨5, ["list"], 0, []⟩ : SState).clone 7).id ≠ 5
  ∧ (∀ o : Nat, o < 7 → ((⟨5, ["list"], 0, []⟩ : SState).clone 7).id ≠ o)
  ∧ (∀ (nm : String) (sx : SState) (wx : DWorld) (c c' : SState),
      reconcileFullName nm sx wx (some c) = some c' →
      c'.id = c.id ∧ c'.cursor = c.cursor ∧ c'.params = c.params ∧
      (c' = c ∨ c' = c.setFullName sx.getFullName)) := by
  have h := C9_current_state_never_aliased { cname := "n" } ⟨5, ["list"], 0, []⟩
    ⟨⟨none, [], fun _ _ => false⟩, 7, []⟩ (by decide)
  exact ⟨h.1, h.2.1, h.2.2.1, h.2.2.2⟩

/-- C4: delegating a descriptor whose default-filled local name is not
declared in the state table is a no-op: the controller subtree (hence its
current and previous states) is returned unchanged, `undefined` is
returned, no allocation happens, and the whole observable activity is the
entry event plus — in debug builds only — exactly one unknown-state
diagnostic; in particular no handler event, no child entry and no crash
appears, so no handler runs, no recursion happens and no exception
escapes. -/
theorem C4_unknown_state_noop (debug : Bool) (core : CtrlCore) (downs : List CtrlT)
    (s : SState) (w : DWorld)
    (hname : (fillStateIfEmpty core s).getName ≠ "")
    (hmiss : core.states.lookup (fillStateIfEmpty core s).getName = none) :
    (delegateState debug (.node core downs) (.st s) w).ctrl = .node core downs
  ∧ (delegateState debug (.node core downs) (.st s) w).ret = false
  ∧ (delegateState debug (.node core downs) (.st s) w).state = some (fillStateIfEmpty core s)
  ∧ (delegateState debug (.node core downs) (.st s) w).world.trace
      = w.trace ++ Ev.enter core.cname ::
          (if debug then [Ev.warnUnknown core.cname (fillStateIfEmpty core s).getName] else [])
  ∧ (delegateState debug (.node core downs) (.st s) w).world.fresh = w.fresh := by
  refine ⟨?_, ?_, ?_, ?_, ?_⟩ <;>
    simp [delegateState, hname, hmiss, emit, syncReg_trace, syncReg_fresh] <;>
    cases debug <;> simp [syncReg_trace, syncReg_fresh]

/-- C4 witness: a debug-build controller declaring only `list` receives a
descriptor named `foo`: nothing changes and the unknown-state diagnostic
appears exactly once. -/
theorem C4_unknown_state_noop_witness :
    (delegateState true
        (.node { cname := "leaf", nrStates := 1, states := [("list", { fn := some 7 })] } [])
        (.st ⟨5, ["foo"], 0, []⟩) ⟨⟨none, [], fun _ _ => false⟩, 10, []⟩).ctrl
      = .node { cname := "leaf", nrStates := 1, states := [("list", { fn := some 7 })] } []
  ∧ (delegateState true
        (.node { cname := "leaf", nrStates := 1, states := [("list", { fn := some 7 })] } [])
        (.st ⟨5, ["foo"], 0, []⟩) ⟨⟨none, [], fun _ _ => false⟩, 10, []⟩).ret = false
  ∧ (delegateState true
        (.node { cname := "leaf", nrStates := 1, states := [("list", { fn := some 7 })] } [])
        (.st ⟨5, ["foo"], 0, []⟩) ⟨⟨none, [], fun _ _ => false⟩, 10, []⟩).state
      = some (fillStateIfEmpty
          { cname := "leaf", nrStates := 1, states := [("list", { fn := some 7 })] }
          ⟨5, ["foo"], 0, []⟩)
  ∧ (delegateState true
        (.node { cname := "leaf", nrStates := 1, states := [("list", { fn := some 7 })] } [])
        (.st ⟨5, ["foo"], 0, []⟩) ⟨⟨none, [], fun _ _ => false⟩, 10, []⟩).world.trace
      = ([] : List Ev) ++ Ev.enter "leaf" ::
          (if true then [Ev.warnUnknown "leaf"
            (fillStateIfEmpty
              { cname := "leaf", nrStates := 1, states := [("list", { fn := some 7 })] }
              ⟨5, ["foo"], 0, []⟩).getName] else [])
  ∧ (delegateState true
        (.node { cname := "leaf", nrStates := 1, states := [("list", { fn := some 7 })] } [])
        (.st ⟨5, ["foo"], 0, []⟩) ⟨⟨none, [], fun _ _ => false⟩, 10, []⟩).world.fresh = 10 :=
  C4_unknown_state_noop true
    { cname := "leaf", nrStates := 1, states := [("list", { fn := some 7 })] } []
    ⟨5, ["foo"], 0, []⟩ ⟨⟨none, [], fun _ _ => false⟩, 10, []⟩ (by decide) (by decide)

/-- C7: during propagation with a non-empty remaining local name the
downlinks are scanned in declared order; `delegateState` is recursed into
exactly the first child whose state table declares that name — every
earlier child is passed through untouched and the children after the
match are returned unchanged, never invoked — and when no child declares
the name the scan returns everything unchanged and emits only the
non-fatal no-child diagnostic (in debug builds). -/
theorem C7_first_declaring_child :
    (∀ (debug : Bool) (cname name fullName : String) (s : SState) (w : DWorld)
       (pre : List CtrlT) (c : CtrlT) (rest : List CtrlT),
      name ≠ "" → (∀ x ∈ pre, declares name x = false) → declares name c = true →
      propagateScan debug cname name fullName s w (pre ++ c :: rest)
        = (pre ++ (delegateState debug c (.st s) w).ctrl :: rest,
           (delegateState debug c (.st s) w).state.getD s,
           (delegateState debug c (.st s) w).world))
  ∧ (∀ (debug : Bool) (cname name fullName : String) (s : SState) (w : DWorld)
       (downs : List CtrlT),
      name ≠ "" → (∀ x ∈ downs, declares name x = false) →
      propagateScan debug cname name fullName s w downs
        = (downs, s, if debug then emit w (.warnNoChild cname name) else w)) := by
  constructor
  · intro debug cname name fullName s w pre c rest hn hpre hc
    induction pre with
    | nil =>
      cases c with
      | other => simp [declares] at hc
      | node ccore cdowns =>
        simp only [declares] at hc
        simp [propagateScan, hn, hc]
    | cons p pre' ih =>
      have hp : declares name p = false := hpre p (by simp)
      have hpre' : ∀ x ∈ pre', declares name x = false := fun x hx => hpre x (by simp [hx])
      cases p with
      | other =>
        simp [propagateScan, ih hpre']
      | node pcore pdowns =>
        simp only [declares] at hp
        simp [propagateScan, hn, hp, ih hpre']
  · intro debug cname name fullName s w downs hn hall
    induction downs with
    | nil => simp [propagateScan, hn]
    | cons p rest ih =>
      have hp : declares name p = false := hall p (by simp)
      have hrest : ∀ x ∈ rest, declares name x = false := fun x hx => hall x (by simp [hx])
      cases p with
      | other => simp [propagateScan, ih hrest]
      | node pcore pdowns =>
        simp only [declares] at hp
        simp [propagateScan, hn, hp, ih hrest]

/-- C7 witness: with a non-controller downlink and a non-declaring child
before two children both declaring `item`, the scan recurses exactly into
the first declaring child and the second one is returned untouched; and a
scan over children none of which declares `item` only warns. -/
theorem C7_first_declaring_child_witness :
    propagateScan true "parent" "item" "list.item" ⟨5, ["list", "item"], 1, []⟩
        ⟨⟨none, [], fun _ _ => false⟩, 10, []⟩
        ([.other, .node { cname := "c0", nrStates := 1, states := [("zzz", { fn := some 3 })] } []]
          ++ .node { cname := "c1", nrStates := 1, states := [("item", { fn := some 8 })] } []
            :: [.node { cname := "c2", nrStates := 1, states := [("item", { fn := some 9 })] } []])
      = ([.other, .node { cname := "c0", nrStates := 1, states := [("zzz", { fn := some 3 })] } []]
          ++ (delegateState true
                (.node { cname := "c1", nrStates := 1, states := [("item", { fn := some 8 })] } [])
                (.st ⟨5, ["list", "item"], 1, []⟩) ⟨⟨none, [], fun _ _ => false⟩, 10, []⟩).ctrl
            :: [.node { cname := "c2", nrStates := 1, states := [("item", { fn := some 9 })] } []],
         (delegateState true
            (.node { cname := "c1", nrStates := 1, states := [("item", { fn := some 8 })] } [])
            (.st ⟨5, ["list", "item"], 1, []⟩) ⟨⟨none, [], fun _ _ => false⟩, 10, []⟩).state.getD
              ⟨5, ["list", "item"], 1, []⟩,
         (delegateState true
            (.node { cname := "c1", nrStates := 1, states := [("item", { fn := some 8 })] } [])
            (.st ⟨5, ["list", "item"], 1, []⟩) ⟨⟨none, [], fun _ _ => false⟩, 10, []⟩).world)
  ∧ propagateScan true "parent" "item" "list.item" ⟨5, ["list", "item"], 1, []⟩
        ⟨⟨none, [], fun _ _ => false⟩, 10, []⟩
        [.node { cname := "c0", nrStates := 1, states := [("zzz", { fn := some 3 })] } []]
      = ([.node { cname := "c0", nrStates := 1, states := [("zzz", { fn := some 3 })] } []],
         ⟨5, ["list", "item"], 1, []⟩,
         if true then emit ⟨⟨none, [], fun _ _ => false⟩, 10, []⟩ (.warnNoChild "parent" "item")
         else ⟨⟨none, [], fun _ _ => false⟩, 10, []⟩) :=
  ⟨C7_first_declaring_child.1 true "parent" "item" "list.item" ⟨5, ["list", "item"], 1, []⟩
      ⟨⟨none, [], fun _ _ => false⟩, 10, []⟩
      [.other, .node { cname := "c0", nrStates := 1, states := [("zzz", { fn := some 3 })] } []]
      (.node { cname := "c1", nrStates := 1, states := [("item", { fn := some 8 })] } [])
      [.node { cname := "c2", nrStates := 1, states := [("item", { fn := some 9 })] } []]
      (by decide) (by decide) (by decide),
   C7_first_declaring_child.2 true "parent" "item" "list.item" ⟨5, ["list", "item"], 1, []⟩
      ⟨⟨none, [], fun _ _ => false⟩, 10, []⟩
      [.node { cname := "c0", nrStates := 1, states := [("zzz", { fn := some 3 })] } []]
      (by decide) (by decide)⟩

/-- C5: in `setState`, when the resolved state has a local name and its
full name is registered with the authority: if the authority's
`setCurrent` reports an actual change, `setState` returns the instance
immediately (subtree untouched, no delegation, the world only gained the
`setCurrent` event); if it reports no change, `setState` resumes by
delegating the authority's existing current descriptor sought to the
resolved local name — the sought descriptor keeps the existing object's
id and the allocation counter is unchanged, so no new descriptor instance
is created in this branch. -/
theorem C5_optimistic_global_set (debug : Bool) (core : CtrlCore) (downs : List CtrlT)
    (up : List CtrlCore) (name : Option String) (params : Params) (w : DWorld)
    (st0 : Resolved) (n : String)
    (hres : resolveFullState debug core up (name.getD "") = .ok st0)
    (hn : st0.name = some n)
    (hreg : w.reg.registered.contains st0.fullName = true) :
    (w.reg.changes st0.fullName (mixIn st0.params params) = true →
      setState debug core downs up name params w
        = .ok ⟨.node core downs, none,
               (regSetCurrent w st0.fullName (mixIn st0.params params)).2, true⟩)
  ∧ (∀ cur : SState, w.reg.changes st0.fullName (mixIn st0.params params) = false →
      w.reg.current = some cur →
      (setState debug core downs up name params w
        = .ok (delegateState debug (.node core downs) (.st (cur.seekTo n))
            (syncReg (regSetCurrent w st0.fullName (mixIn st0.params params)).2
              (cur.seekTo n)))
      ∧ (cur.seekTo n).id = cur.id
      ∧ (regSetCurrent w st0.fullName (mixIn st0.params params)).2.fresh = w.fresh)) := by
  have hreg2 : st0.fullName ∈ w.reg.registered := by simpa using hreg
  constructor
  · intro hch
    simp [setState, hres, hn, hreg2, regSetCurrent, hch]
  · intro cur hch hcur
    refine ⟨?_, rfl, ?_⟩
    · simp [setState, hres, hn, hreg2, regSetCurrent, hch, emit, hcur]
    · simp [regSetCurrent, hch, emit]

/-- C5 witness: a controller declaring `home`, once against an authority
that reports a change (immediate return) and once against one that
reports no change while holding an equal descriptor (delegation resumes
with that descriptor sought to `home`, same id, no allocation). -/
theorem C5_optimistic_global_set_witness :
    setState false { cname := "app", nrStates := 1, states := [("home", { fn := some 1 })] }
        [] [] (some "home") [] ⟨⟨none, ["home"], fun _ _ => true⟩, 3, []⟩
      = .ok ⟨.node { cname := "app", nrStates := 1, states := [("home", { fn := some 1 })] } [],
             none,
             (regSetCurrent ⟨⟨none, ["home"], fun _ _ => true⟩, 3, []⟩ "home"
               (mixIn ([] : Params) [])).2, true⟩
  ∧ (setState false { cname := "app", nrStates := 1, states := [("home", { fn := some 1 })] }
        [] [] (some "home") []
        ⟨⟨some ⟨0, ["home"], 0, []⟩, ["home"], fun _ _ => false⟩, 3, []⟩
      = .ok (delegateState false
          (.node { cname := "app", nrStates := 1, states := [("home", { fn := some 1 })] } [])
          (.st ((⟨0, ["home"], 0, []⟩ : SState).seekTo "home"))
          (syncReg (regSetCurrent
              ⟨⟨some ⟨0, ["home"], 0, []⟩, ["home"], fun _ _ => false⟩, 3, []⟩ "home"
              (mixIn ([] : Params) [])).2
            ((⟨0, ["home"], 0, []⟩ : SState).seekTo "home")))
    ∧ ((⟨0, ["home"], 0, []⟩ : SState).seekTo "home").id = (⟨0, ["home"], 0, []⟩ : SState).id
    ∧ (regSetCurrent ⟨⟨some ⟨0, ["home"], 0, []⟩, ["home"], fun _ _ => false⟩, 3, []⟩ "home"
        (mixIn ([] : Params) [])).2.fresh = 3) :=
  ⟨(C5_optimistic_global_set false
      { cname := "app", nrStates := 1, states := [("home", { fn := some 1 })] } [] []
      (some "home") [] ⟨⟨none, ["home"], fun _ _ => true⟩, 3, []⟩
      ⟨some "home", "home", []⟩ "home" rfl rfl (by decide)).1 rfl,
   (C5_optimistic_global_set false
      { cname := "app", nrStates := 1, states := [("home", { fn := some 1 })] } [] []
      (some "home") [] ⟨⟨some ⟨0, ["home"], 0, []⟩, ["home"], fun _ _ => false⟩, 3, []⟩
      ⟨some "home", "home", []⟩ "home" rfl rfl (by decide)).2
     ⟨0, ["home"], 0, []⟩ rfl rfl⟩

/-- C10: `delegateState` returns `undefined` (not the instance) on both
no-op branches — a still-empty local name after default filling, and a
name not declared in the state table — and returns the instance when a
transition or propagation actually occurs; a `setState` call that reaches
delegation (in either the existing-descriptor or the brand-new-descriptor
branch) returns exactly what `delegateState` returns, so in the no-op
cases it returns `undefined` as well, despite the documented
return-for-chaining contract. -/
theorem C10_chaining_contract :
    (∀ (debug : Bool) (core : CtrlCore) (downs : List CtrlT) (s : SState) (w : DWorld),
      (fillStateIfEmpty core s).getName = "" →
      (delegateState debug (.node core downs) (.st s) w).ret = false)
  ∧ (∀ (debug : Bool) (core : CtrlCore) (downs : List CtrlT) (s : SState) (w : DWorld),
      (fillStateIfEmpty core s).getName ≠ "" →
      core.states.lookup (fillStateIfEmpty core s).getName = none →
      (delegateState debug (.node core downs) (.st s) w).ret = false)
  ∧ (∀ (debug : Bool) (core : CtrlCore) (downs : List CtrlT) (s : SState) (w : DWorld) m,
      (fillStateIfEmpty core s).getName ≠ "" →
      core.states.lookup (fillStateIfEmpty core s).getName = some m →
      (delegateState debug (.node core downs) (.st s) w).ret = true)
  ∧ (∀ (debug : Bool) (core : CtrlCore) (downs : List CtrlT) (up : List CtrlCore)
       (name : Option String) (params : Params) (w : DWorld) (st0 : Resolved) (n : String)
       (cur : SState),
      resolveFullState debug core up (name.getD "") = .ok st0 →
      st0.name = some n →
      w.reg.registered.contains st0.fullName = true →
      w.reg.changes st0.fullName (mixIn st0.params params) = false →
      w.reg.current = some cur →
      ∃ r : DRes, setState debug core downs up name params w = .ok r ∧
        r.ret = (delegateState debug (.node core downs) (.st (cur.seekTo n))
          (syncReg (regSetCurrent w st0.fullName (mixIn st0.params params)).2
            (cur.seekTo n))).ret)
  ∧ (∀ (debug : Bool) (core : CtrlCore) (downs : List CtrlT) (up : List CtrlCore)
       (name : Option String) (params : Params) (w : DWorld) (st0 : Resolved) (n : String),
      resolveFullState debug core up (name.getD "") = .ok st0 →
      st0.name = some n →
      w.reg.registered.contains st0.fullName = false →
      ∃ r : DRes, setState debug core downs up name params w = .ok r ∧
        r.ret = (delegateState debug (.node core downs)
          (.st ⟨w.fresh, splitDot n, 0, objSet (mixIn st0.params params) "$info" ""⟩)
          { w with fresh := w.fresh + 1, trace := w.trace ++ [.created w.fresh] }).ret) := by
  refine ⟨?_, ?_, ?_, ?_, ?_⟩
  · intro debug core downs s w h
    simp [delegateState, h]
  · intro debug core downs s w h hm
    simp [delegateState, h, hm]
  · intro debug core downs s w m h hm
    simp [delegateState, h, hm]
  · intro debug core downs up name params w st0 n cur hres hn hreg hch hcur
    have hreg2 : st0.fullName ∈ w.reg.registered := by simpa using hreg
    refine ⟨_, ?_, rfl⟩
    simp [setState, hres, hn, hreg2, regSetCurrent, hch, emit, hcur]
  · intro debug core downs up name params w st0 n hres hn hreg
    have hreg2 : st0.fullName ∉ w.reg.registered := by simpa using hreg
    refine ⟨_, ?_, rfl⟩
    simp [setState, hres, hn, hreg2]

/-- C10 witness: an empty-named descriptor on a default-less controller
and an unknown name both make `delegateState` return `undefined`; a
declared name makes it return the instance; and both delegating branches
of `setState` forward the delegation's return value. -/
theorem C10_chaining_contract_witness :
    (delegateState true
        (.node { cname := "leaf", nrStates := 1, states := [("list", { fn := some 7 })] } [])
        (.st ⟨5, [], 0, []⟩) ⟨⟨none, [], fun _ _ => false⟩, 10, []⟩).ret = false
  ∧ (delegateState true
        (.node { cname := "leaf", nrStates := 1, states := [("list", { fn := some 7 })] } [])
        (.st ⟨5, ["foo"], 0, []⟩) ⟨⟨none, [], fun _ _ => false⟩, 10, []⟩).ret = false
  ∧ (delegateState true
        (.node { cname := "leaf", nrStates := 1, states := [("list", { fn := some 7 })] } [])
        (.st ⟨5, ["list"], 0, []⟩) ⟨⟨none, [], fun _ _ => false⟩, 10, []⟩).ret = true
  ∧ (∃ r : DRes, setState false
        { cname := "app", nrStates := 1, states := [("home", { fn := some 1 })] } [] []
        (some "home") [] ⟨⟨some ⟨0, ["home"], 0, []⟩, ["home"], fun _ _ => false⟩, 3, []⟩
        = .ok r ∧
      r.ret = (delegateState false
        (.node { cname := "app", nrStates := 1, states := [("home", { fn := some 1 })] } [])
        (.st ((⟨0, ["home"], 0, []⟩ : SState).seekTo "home"))
        (syncReg (regSetCurrent
            ⟨⟨some ⟨0, ["home"], 0, []⟩, ["home"], fun _ _ => false⟩, 3, []⟩ "home"
            (mixIn ([] : Params) [])).2
          ((⟨0, ["home"], 0, []⟩ : SState).seekTo "home"))).ret)
  ∧ (∃ r : DRes, setState false
        { cname := "app", nrStates := 1, states := [("home", { fn := some 1 })] } [] []
        (some "home") [] ⟨⟨none, [], fun _ _ => false⟩, 3, []⟩
        = .ok r ∧
      r.ret = (delegateState false
        (.node { cname := "app", nrStates := 1, states := [("home", { fn := some 1 })] } [])
        (.st ⟨3, splitDot "home", 0, objSet (mixIn ([] : Params) []) "$info" ""⟩)
        { (⟨⟨none, [], fun _ _ => false⟩, 3, []⟩ : DWorld) with
            fresh := 3 + 1, trace := ([] : List Ev) ++ [.created 3] }).ret) :=
  ⟨C10_chaining_contract.1 true
      { cname := "leaf", nrStates := 1, states := [("list", { fn := some 7 })] } []
      ⟨5, [], 0, []⟩ ⟨⟨none, [], fun _ _ => false⟩, 10, []⟩ (by decide),
   C10_chaining_contract.2.1 true
      { cname := "leaf", nrStates := 1, states := [("list", { fn := some 7 })] } []
      ⟨5, ["foo"], 0, []⟩ ⟨⟨none, [], fun _ _ => false⟩, 10, []⟩ (by decide) (by decide),
   C10_chaining_contract.2.2.1 true
      { cname := "leaf", nrStates := 1, states := [("list", { fn := some 7 })] } []
      ⟨5, ["list"], 0, []⟩ ⟨⟨none, [], fun _ _ => false⟩, 10, []⟩ { fn := some 7 }
      (by decide) (by decide),
   C10_chaining_contract.2.2.2.1 false
      { cname := "app", nrStates := 1, states := [("home", { fn := some 1 })] } [] []
      (some "home") [] ⟨⟨some ⟨0, ["home"], 0, []⟩, ["home"], fun _ _ => false⟩, 3, []⟩
      ⟨some "home", "home", []⟩ "home" ⟨0, ["home"], 0, []⟩ rfl rfl (by decide) rfl rfl,
   C10_chaining_contract.2.2.2.2 false
      { cname := "app", nrStates := 1, states := [("home", { fn := some 1 })] } [] []
      (some "home") [] ⟨⟨none, [], fun _ _ => false⟩, 3, []⟩
      ⟨some "home", "home", []⟩ "home" rfl rfl (by decide)⟩

end Spoon
